import Mathlib

/-!
# Movie review platform — verification of the query/aggregation core

A shallow embedding of the Express server in `backend/server.js`: the
in-memory record collections, the rating aggregator
(`calculateAverageRating`), the catalog query engine (`GET /api/movies`,
`GET /api/movies/featured`), and the review/watchlist mutators.

Conventions of the embedding:
* JS numbers holding integers become `Nat`/`Int`; the derived average
  rating (a decimal such as `4.8`) becomes `ℚ`.
* `Math.round` becomes `jsRound` (floor of `x + 1/2`, halves toward `+∞`,
  which is JS semantics for all reals).
* `Array.prototype.sort` with a consistent comparator is modelled as the
  stable sort `List.insertionSort` over the relation
  `compare a b ≤ 0`; ECMAScript mandates a stable sort, and the output of
  a stable sort is uniquely determined by that relation.
* Strings are handled through their character lists:
  `String.prototype.localeCompare` is modelled as lexicographic
  (code-point) comparison, `String.prototype.includes` as
  contiguous-sublist search, `String.prototype.toLowerCase` as a
  character-wise `Char.toLower` map, `String.prototype.trim` as
  whitespace trimming at both ends.
* The ambient clock (`new Date().toISOString()`) is passed in as an
  explicit `now : String` argument; the bcrypt hash and the JWT layer are
  outside the modelled core (handlers are embedded after authentication,
  taking the authenticated user id as an argument).
* Mutating handlers return `Except ApiError result × ServerState`: the
  response and the collections after the request.  HTTP statuses are
  mapped to the error taxonomy: 404 → `notFound`, the 400s raised on
  duplicate review / duplicate watchlist entry → `conflict`,
  other 400s → `validation`, 403 → `forbidden`, 500 → `serverError`.
-/

namespace MovieServer

/-- JS `Math.round`: nearest integer, halves toward `+∞`. -/
def jsRound (q : ℚ) : ℤ := ⌊q + 1/2⌋

/-- A review record (`reviews` collection), as built in
`POST /api/movies/:id/reviews`. -/
structure Review where
  id : Nat
  movieId : Nat
  userId : Nat
  rating : ℤ
  reviewText : String
  timestamp : String
deriving Repr, DecidableEq

/-- A movie record (`movies` collection).  The `reviews` field mirrors the
embedded array on the JS objects, which is initialised to `[]` and never
written afterwards. -/
structure Movie where
  id : Nat
  title : String
  genre : List String
  releaseYear : ℤ
  director : String
  cast : List String
  synopsis : String
  posterUrl : String
  averageRating : ℚ
  reviews : List Review
deriving Repr, DecidableEq

/-- A user record (`users` collection). -/
structure User where
  id : Nat
  username : String
  email : String
  password : String
  profilePicture : String
  joinDate : String
deriving Repr, DecidableEq

/-- A watchlist record (`watchlists` collection). -/
structure WatchlistItem where
  id : Nat
  userId : Nat
  movieId : Nat
  dateAdded : String
deriving Repr, DecidableEq

/-- The four in-memory collections of the server (module-level `let`s). -/
structure ServerState where
  movies : List Movie
  users : List User
  reviews : List Review
  watchlists : List WatchlistItem
deriving Repr, DecidableEq

/-- Error taxonomy for the handler responses (see module docstring for the
HTTP status mapping). -/
inductive ApiError where
  | validation
  | unauthorized
  | forbidden
  | notFound
  | conflict
  | serverError
deriving Repr, DecidableEq

/-- `calculateAverageRating` (server.js:78-84): filter the reviews of the
movie; `0` when there are none, otherwise
`Math.round((sum / count) * 10) / 10`. -/
def calculateAverageRating (reviews : List Review) (movieId : Nat) : ℚ :=
  let movieReviews := reviews.filter fun r => r.movieId == movieId
  if movieReviews.length == 0 then 0
  else
    let sum : ℤ := movieReviews.foldl (fun acc r => acc + r.rating) 0
    (jsRound ((sum / (movieReviews.length : ℚ)) * 10) : ℚ) / 10

/-- The Rating Aggregator's `recompute(entryId) -> (averageRating,
reviewCount)`: the average is the source's `calculateAverageRating`, the
count is the `movieReviews.length` computed inside it (the caller at
server.js:370-371 stores the average on the movie; the count is the length
of the filtered review list). -/
def recompute (reviews : List Review) (movieId : Nat) : ℚ × Nat :=
  (calculateAverageRating reviews movieId,
   (reviews.filter fun r => r.movieId == movieId).length)

/-- Sum of the ratings of a list of reviews, as the JS `reduce`. -/
def ratingSum (l : List Review) : ℤ := l.foldl (fun acc r => acc + r.rating) 0

theorem foldl_add_ratings (l : List Review) (c : ℤ) :
    l.foldl (fun acc r => acc + r.rating) c = c + ratingSum l := by
  induction l generalizing c with
  | nil => simp [ratingSum]
  | cons x xs ih =>
    simp only [ratingSum, List.foldl_cons]
    rw [ih (c + x.rating), ih (0 + x.rating)]
    ring

theorem ratingSum_cons (r : Review) (l : List Review) :
    ratingSum (r :: l) = r.rating + ratingSum l := by
  have h := foldl_add_ratings l (0 + r.rating)
  simp only [ratingSum, List.foldl_cons] at *
  rw [h]
  ring

theorem ratingSum_eq_sum_map (l : List Review) :
    ratingSum l = (l.map fun r => r.rating).sum := by
  induction l with
  | nil => simp [ratingSum]
  | cons x xs ih => rw [ratingSum_cons, List.map_cons, List.sum_cons, ih]

/-- C1: on the empty review set `recompute` yields `(0, 0)`; otherwise the
count is the number of reviews of the movie and the average is `k/10`
where `k` is the round-half-up integer of ten times the mean rating
(characterised by `k ≤ 10·mean + 1/2 < k + 1`). -/
theorem recompute_correct (reviews : List Review) (movieId : Nat) :
    ((reviews.filter fun r => r.movieId == movieId) = [] →
      recompute reviews movieId = (0, 0)) ∧
    ((reviews.filter fun r => r.movieId == movieId) ≠ [] →
      (recompute reviews movieId).2 =
          (reviews.filter fun r => r.movieId == movieId).length ∧
      ∃ k : ℤ,
        (recompute reviews movieId).1 = (k : ℚ) / 10 ∧
        (k : ℚ) ≤ 10 * (((reviews.filter fun r => r.movieId == movieId).map
            fun r => (r.rating : ℚ)).sum /
            ((reviews.filter fun r => r.movieId == movieId).length : ℚ)) + 1/2 ∧
        10 * (((reviews.filter fun r => r.movieId == movieId).map
            fun r => (r.rating : ℚ)).sum /
            ((reviews.filter fun r => r.movieId == movieId).length : ℚ)) + 1/2
          < (k : ℚ) + 1) := by
  constructor
  · intro h
    simp [recompute, calculateAverageRating, h]
  · intro h
    set R := reviews.filter fun r => r.movieId == movieId with hR
    have hlen : R.length ≠ 0 := fun hc => h (List.length_eq_zero.mp hc)
    refine ⟨rfl, jsRound ((ratingSum R / (R.length : ℚ)) * 10), ?_, ?_, ?_⟩
    · simp only [recompute, calculateAverageRating]
      rw [← hR]
      simp [hlen, ratingSum]
    · have hfloor := Int.floor_le ((ratingSum R / (R.length : ℚ)) * 10 + 1/2)
      have hs : ((R.map fun r => (r.rating : ℚ)).sum) = ((ratingSum R : ℤ) : ℚ) := by
        rw [ratingSum_eq_sum_map, Int.cast_list_sum, List.map_map]
        rfl
      rw [hs]
      simpa [jsRound, mul_comm] using hfloor
    · have hfloor := Int.lt_floor_add_one ((ratingSum R / (R.length : ℚ)) * 10 + 1/2)
      have hs : ((R.map fun r => (r.rating : ℚ)).sum) = ((ratingSum R : ℤ) : ℚ) := by
        rw [ratingSum_eq_sum_map, Int.cast_list_sum, List.map_map]
        rfl
      rw [hs]
      have : (10 : ℚ) * ((ratingSum R : ℤ) : ℚ) / (R.length : ℚ) + 1/2
          = (ratingSum R / (R.length : ℚ)) * 10 + 1/2 := by ring
      calc 10 * (((ratingSum R : ℤ) : ℚ) / (R.length : ℚ)) + 1/2
          = (ratingSum R / (R.length : ℚ)) * 10 + 1/2 := by ring
        _ < jsRound ((ratingSum R / (R.length : ℚ)) * 10) + 1 := by
            simp only [jsRound]
            exact_mod_cast hfloor

/-! ## Seed data (server.js:16-57) -/

/-- The seeded `movies` collection (server.js:16-53). -/
def initialMovies : List Movie :=
  [{ id := 1, title := "The Shawshank Redemption", genre := ["Drama"],
     releaseYear := 1994, director := "Frank Darabont",
     cast := ["Tim Robbins", "Morgan Freeman", "Bob Gunton"],
     synopsis := "Two imprisoned men bond over a number of years, finding solace and eventual redemption through acts of common decency.",
     posterUrl := "https://via.placeholder.com/300x450?text=Shawshank",
     averageRating := 4.8, reviews := [] },
   { id := 2, title := "The Godfather", genre := ["Crime", "Drama"],
     releaseYear := 1972, director := "Francis Ford Coppola",
     cast := ["Marlon Brando", "Al Pacino", "James Caan"],
     synopsis := "The aging patriarch of an organized crime dynasty transfers control of his clandestine empire to his reluctant son.",
     posterUrl := "https://via.placeholder.com/300x450?text=Godfather",
     averageRating := 4.7, reviews := [] },
   { id := 3, title := "Pulp Fiction", genre := ["Crime", "Drama"],
     releaseYear := 1994, director := "Quentin Tarantino",
     cast := ["John Travolta", "Uma Thurman", "Samuel L. Jackson"],
     synopsis := "The lives of two mob hitmen, a boxer, a gangster and his wife intertwine in four tales of violence and redemption.",
     posterUrl := "https://via.placeholder.com/300x450?text=Pulp+Fiction",
     averageRating := 4.6, reviews := [] }]

/-- The initial collections: the three seeded movies; `users`, `reviews`
and `watchlists` start empty (server.js:55-57). -/
def initialState : ServerState :=
  { movies := initialMovies, users := [], reviews := [], watchlists := [] }

/-! ## String helpers

The embedding works on character lists (`String.toList`) rather than the
iterator-based core `String` functions, which cannot be evaluated inside
the kernel.  `lowerChars` models `String.prototype.toLowerCase`,
`charsContain` models `String.prototype.includes`, `charsLe` models
`a.localeCompare(b) <= 0` as lexicographic (code-point) order, and
`trimChars` models `String.prototype.trim` /
the `trim()` sanitizer of express-validator. -/

/-- JS `toLowerCase`, character by character. -/
def lowerChars (s : String) : List Char :=
  s.toList.map Char.toLower

/-- The characters of the first list lead the second (prefix test). -/
def charsLeadWith : List Char → List Char → Bool
  | [], _ => true
  | _ :: _, [] => false
  | a :: as, b :: bs => a == b && charsLeadWith as bs

/-- The characters of `sub` occur contiguously in `s`
(JS `String.prototype.includes`). -/
def charsContain (s sub : List Char) : Bool :=
  charsLeadWith sub s ||
    (match s with
     | [] => false
     | _ :: t => charsContain t sub)

/-- Lexicographic (code-point) comparison `l₁ ≤ l₂` of character lists. -/
def charsLe : List Char → List Char → Bool
  | [], _ => true
  | _ :: _, [] => false
  | a :: as, b :: bs =>
    if a.toNat < b.toNat then true
    else if b.toNat < a.toNat then false
    else charsLe as bs

/-- Whitespace trimming at both ends (JS `String.prototype.trim`). -/
def trimChars (s : String) : List Char :=
  ((s.toList.dropWhile Char.isWhitespace).reverse.dropWhile
    Char.isWhitespace).reverse

theorem charsLe_total : ∀ l₁ l₂ : List Char, charsLe l₁ l₂ = true ∨ charsLe l₂ l₁ = true
  | [], _ => Or.inl rfl
  | _ :: _, [] => Or.inr rfl
  | a :: as, b :: bs => by
    rcases Nat.lt_trichotomy a.toNat b.toNat with h | h | h
    · left
      simp [charsLe, h]
    · have h' : ¬ a.toNat < b.toNat := by omega
      have h'' : ¬ b.toNat < a.toNat := by omega
      rcases charsLe_total as bs with ih | ih
      · left
        simp [charsLe, h', h'', ih]
      · right
        simp [charsLe, h', h'', ih]
    · right
      simp [charsLe, h]

theorem charsLe_trans : ∀ l₁ l₂ l₃ : List Char,
    charsLe l₁ l₂ = true → charsLe l₂ l₃ = true → charsLe l₁ l₃ = true
  | [], _, _, _, _ => rfl
  | _ :: _, [], _, h₁, _ => by simp [charsLe] at h₁
  | _ :: _, _ :: _, [], _, h₂ => by simp [charsLe] at h₂
  | a :: as, b :: bs, c :: cs, h₁, h₂ => by
    simp only [charsLe] at h₁ h₂ ⊢
    rcases Nat.lt_trichotomy a.toNat b.toNat with hab | hab | hab
    · rcases Nat.lt_trichotomy b.toNat c.toNat with hbc | hbc | hbc
      · have hac : a.toNat < c.toNat := Nat.lt_trans hab hbc
        simp [hac]
      · have hac : a.toNat < c.toNat := by omega
        simp [hac]
      · rw [if_neg (by omega), if_pos hbc] at h₂
        exact absurd h₂ (by simp)
    · rw [if_neg (by omega), if_neg (by omega)] at h₁
      rcases Nat.lt_trichotomy b.toNat c.toNat with hbc | hbc | hbc
      · have hac : a.toNat < c.toNat := by omega
        simp [hac]
      · rw [if_neg (by omega), if_neg (by omega)] at h₂
        rw [if_neg (by omega), if_neg (by omega)]
        exact charsLe_trans as bs cs h₁ h₂
      · rw [if_neg (by omega), if_pos hbc] at h₂
        exact absurd h₂ (by simp)
    · rw [if_neg (by omega), if_pos hab] at h₁
      exact absurd h₁ (by simp)

/-! ## Catalog query engine (`GET /api/movies`, server.js:190-242) -/

/-- Genre filter (server.js:196-200): some genre tag contains the query
string, case-insensitively. -/
def matchesGenre (g : String) (m : Movie) : Bool :=
  m.genre.any fun t => charsContain (lowerChars t) (lowerChars g)

/-- Year filter (server.js:202-204): the JS compares
`movie.releaseYear.toString() === year`, i.e. exact year equality for a
numeric query string. -/
def matchesYear (y : ℤ) (m : Movie) : Bool :=
  m.releaseYear == y

/-- Search filter (server.js:206-213): the lowercased term occurs in the
title, the director, or some cast member name. -/
def matchesSearch (searchTerm : List Char) (m : Movie) : Bool :=
  charsContain (lowerChars m.title) searchTerm ||
  charsContain (lowerChars m.director) searchTerm ||
  m.cast.any fun actor => charsContain (lowerChars actor) searchTerm

/-- Query parameters of `GET /api/movies`; `none` models an absent (or
falsy) parameter.  Handler defaults: `page = 1`, `limit = 10`,
`sortBy = "title"` (server.js:192). -/
structure ListQuery where
  page : Nat := 1
  limit : Nat := 10
  genre : Option String := none
  year : Option ℤ := none
  search : Option String := none
  sortBy : String := "title"
deriving Repr, DecidableEq

/-- The filter pipeline of `GET /api/movies` (server.js:195-213), in
source order: genre, then year, then search (the search term is lowercased
once before the scan). -/
def applyFilters (q : ListQuery) (l : List Movie) : List Movie :=
  let l1 := match q.genre with
    | some g => l.filter (matchesGenre g)
    | none => l
  let l2 := match q.year with
    | some y => l1.filter (matchesYear y)
    | none => l1
  match q.search with
  | some s => l2.filter (matchesSearch (lowerChars s))
  | none => l2

/-- The sort comparator of server.js:216-226 as the relation
`compare a b ≤ 0` ("`a` may come before `b`").  `year` and `rating`
compare descending (`b - a`); `title` and every unrecognized value use
`a.title.localeCompare(b.title)`, modelled as lexicographic order. -/
def sortLe (sortBy : String) (a b : Movie) : Prop :=
  if sortBy = "year" then b.releaseYear ≤ a.releaseYear
  else if sortBy = "rating" then b.averageRating ≤ a.averageRating
  else charsLe a.title.toList b.title.toList = true

instance (sortBy : String) : DecidableRel (sortLe sortBy) := fun a b => by
  unfold sortLe
  infer_instance

instance (sortBy : String) : IsTotal Movie (sortLe sortBy) :=
  ⟨fun a b => by
    unfold sortLe
    split_ifs
    · apply le_total
    · apply le_total
    · exact charsLe_total a.title.toList b.title.toList⟩

instance (sortBy : String) : IsTrans Movie (sortLe sortBy) :=
  ⟨fun a b c => by
    unfold sortLe
    split_ifs
    · exact fun h1 h2 => le_trans h2 h1
    · exact fun h1 h2 => le_trans h2 h1
    · exact charsLe_trans a.title.toList b.title.toList c.title.toList⟩

/-- `filteredMovies.sort(comparator)` (server.js:216-226): ECMAScript
`Array.prototype.sort` is stable, and with a consistent comparator a
stable sort's output is the unique permutation that is sorted w.r.t.
`sortLe` and keeps tied elements in input order; `List.insertionSort`
computes exactly that permutation. -/
def jsSort (sortBy : String) (l : List Movie) : List Movie :=
  l.insertionSort (sortLe sortBy)

/-- The response shape of `GET /api/movies` (server.js:233-238);
`totalPages` is `Math.ceil(filteredMovies.length / limit)`. -/
structure ListResult where
  movies : List Movie
  totalCount : Nat
  currentPage : Nat
  totalPages : ℤ
deriving Repr, DecidableEq

/-- `GET /api/movies` (server.js:190-242): apply the filters, sort the
filtered set, then slice the window
`[(page-1)*limit, (page-1)*limit + limit)`.  `page - 1` is `Nat`
subtraction, which agrees with the JS arithmetic for every `page ≥ 1`
(the handler default is 1; the spec requires `page ≥ 1`). -/
def listMovies (store : List Movie) (q : ListQuery) : ListResult :=
  { movies := ((jsSort q.sortBy (applyFilters q store)).drop
      ((q.page - 1) * q.limit)).take q.limit
    totalCount := (applyFilters q store).length
    currentPage := q.page
    totalPages := ⌈((applyFilters q store).length : ℚ) / (q.limit : ℚ)⌉ }

/-- `GET /api/movies/featured` (server.js:563-575): sort a copy of the
store by descending average rating (the `rating` comparator) and take the
first 6. -/
def featuredMovies (store : List Movie) : List Movie :=
  (jsSort "rating" store).take 6

/-! ## Pagination arithmetic -/

theorem sum_page_lengths (k : Nat) (l : List Movie) (m : Nat) :
    (∑ p in Finset.range m, ((l.drop (p * k)).take k).length) = min (m * k) l.length := by
  induction m generalizing l with
  | zero => simp
  | succ m ih =>
    rw [Finset.sum_range_succ']
    have hs : ∀ p ∈ Finset.range m,
        ((l.drop ((p + 1) * k)).take k).length =
          (((l.drop k).drop (p * k)).take k).length := by
      intro p _
      rw [Nat.succ_mul, List.drop_drop, Nat.add_comm k (p * k)]
    rw [Finset.sum_congr rfl hs, ih (l.drop k)]
    simp only [Nat.zero_mul, List.drop_zero, List.length_take, List.length_drop]
    rw [Nat.succ_mul]
    omega

theorem ceil_div_mul_ge (n k : Nat) (hk : 0 < k) :
    n ≤ (⌈(n : ℚ) / (k : ℚ)⌉).toNat * k := by
  have hk' : (0 : ℚ) < (k : ℚ) := by exact_mod_cast hk
  have h1 : (n : ℚ) / (k : ℚ) ≤ (⌈(n : ℚ) / (k : ℚ)⌉ : ℚ) := Int.le_ceil _
  rw [div_le_iff₀ hk'] at h1
  have h0 : 0 ≤ ⌈(n : ℚ) / (k : ℚ)⌉ := Int.ceil_nonneg (by positivity)
  rw [← Int.toNat_of_nonneg h0] at h1
  exact_mod_cast h1

/-! ## Review and watchlist mutators -/

/-- A review joined with its author's public profile fields, as returned
by the review endpoints (`username`, `userProfilePicture`). -/
structure JoinedReview where
  review : Review
  username : String
  userProfilePicture : Option String
deriving Repr, DecidableEq

/-- Map `f` over the first list entry whose id is `movieId`: the effect of
`movies.findIndex(m => m.id === movieId)` followed by an assignment to
`movies[movieIndex]` (server.js:370-371). -/
def updateFirst (l : List Movie) (movieId : Nat) (f : Movie → Movie) : List Movie :=
  match l with
  | [] => []
  | m :: rest =>
    if m.id == movieId then f m :: rest else m :: updateFirst rest movieId f

/-- `POST /api/movies/:id/reviews` (server.js:330-385): validate
(`rating` an integer in `[1,5]`, `reviewText` non-empty, then trimmed by
the sanitizer), 404 when the movie is missing, 400/conflict when this
user already reviewed this movie; otherwise push the review (id
`reviews.length + 1`), store the recomputed average on the movie, and
answer with the review joined with the author's fields.  When the
author's user record is missing the JS dereferences `undefined` and the
handler 500s — after the push and the rating update have already
happened, which the returned state reflects. -/
def addReview (s : ServerState) (authUserId : Nat) (movieId : Nat)
    (rating : ℤ) (reviewText : String) (now : String) :
    Except ApiError JoinedReview × ServerState :=
  if ¬ (1 ≤ rating ∧ rating ≤ 5) ∨ reviewText = "" then (.error .validation, s)
  else
    match s.movies.find? fun m => m.id == movieId with
    | none => (.error .notFound, s)
    | some _ =>
      if (s.reviews.find? fun r => r.movieId == movieId && r.userId == authUserId).isSome then
        (.error .conflict, s)
      else
        let newReview : Review :=
          { id := s.reviews.length + 1, movieId := movieId, userId := authUserId,
            rating := rating, reviewText := (trimChars reviewText).asString,
            timestamp := now }
        let reviews' := s.reviews ++ [newReview]
        let movies' := updateFirst s.movies movieId fun m =>
          { m with averageRating := calculateAverageRating reviews' movieId }
        match s.users.find? fun u => u.id == authUserId with
        | none => (.error .serverError, { s with movies := movies', reviews := reviews' })
        | some user =>
          (.ok { review := newReview, username := user.username,
                 userProfilePicture := some user.profilePicture },
           { s with movies := movies', reviews := reviews' })

/-- `GET /api/movies/:id/reviews` (server.js:310-328): filter the reviews
by movie id and join each with its author's public fields.  The handler
never consults the `movies` collection. -/
def getMovieReviews (s : ServerState) (movieId : Nat) : List JoinedReview :=
  (s.reviews.filter fun r => r.movieId == movieId).map fun r =>
    match s.users.find? fun u => u.id == r.userId with
    | some u =>
      { review := r, username := u.username, userProfilePicture := some u.profilePicture }
    | none => { review := r, username := "Unknown User", userProfilePicture := none }

/-- `POST /api/users/:id/watchlist` (server.js:494-537): validate
(`movieId ≥ 1`), 403 unless the caller owns the watchlist, 404 when the
movie is missing, 400/conflict when the pair already exists; otherwise
push an item with id `watchlists.length + 1` and answer it joined with
the movie. -/
def addToWatchlist (s : ServerState) (authUserId pathUserId movieId : Nat)
    (now : String) : Except ApiError (WatchlistItem × Movie) × ServerState :=
  if movieId < 1 then (.error .validation, s)
  else if authUserId ≠ pathUserId then (.error .forbidden, s)
  else
    match s.movies.find? fun m => m.id == movieId with
    | none => (.error .notFound, s)
    | some movie =>
      if (s.watchlists.find? fun w => w.userId == pathUserId && w.movieId == movieId).isSome then
        (.error .conflict, s)
      else
        let item : WatchlistItem :=
          { id := s.watchlists.length + 1, userId := pathUserId,
            movieId := movieId, dateAdded := now }
        (.ok (item, movie), { s with watchlists := s.watchlists ++ [item] })

/-- `DELETE /api/users/:id/watchlist/:movieId` (server.js:539-561): 403
unless the caller owns the watchlist, 404 when no matching item exists
(`findIndex` returns -1); otherwise `splice(itemIndex, 1)` at the found
index, i.e. removal of the first matching item (`List.eraseP`). -/
def removeFromWatchlist (s : ServerState) (authUserId pathUserId movieId : Nat) :
    Except ApiError Unit × ServerState :=
  if authUserId ≠ pathUserId then (.error .forbidden, s)
  else if (s.watchlists.find? fun w => w.userId == pathUserId && w.movieId == movieId).isSome then
    (.ok (), { s with watchlists :=
      s.watchlists.eraseP fun w => w.userId == pathUserId && w.movieId == movieId })
  else (.error .notFound, s)

/-- `POST /api/movies` (server.js:275-307): validate (non-empty `title`
and `director`, both trimmed by the sanitizer, `releaseYear` in
`[1900, currentYear + 5]`), then push a movie with id
`movies.length + 1`, `averageRating` 0 and the defaulted optional fields.
`currentYear` stands for `new Date().getFullYear()`;
`encodeURIComponent(title)` in the default poster URL is modelled as the
title itself. -/
def createMovie (s : ServerState) (title : String) (genre : List String)
    (releaseYear : ℤ) (director : String) (castOpt : Option (List String))
    (synopsisOpt : Option String) (posterUrlOpt : Option String)
    (currentYear : ℤ) : Except ApiError Movie × ServerState :=
  if title = "" ∨ director = "" ∨ releaseYear < 1900 ∨ currentYear + 5 < releaseYear then
    (.error .validation, s)
  else
    let newMovie : Movie :=
      { id := s.movies.length + 1,
        title := (trimChars title).asString,
        genre := genre,
        releaseYear := releaseYear,
        director := (trimChars director).asString,
        cast := castOpt.getD [],
        synopsis := synopsisOpt.getD "",
        posterUrl := posterUrlOpt.getD ("https://via.placeholder.com/300x450?text=" ++ title),
        averageRating := 0,
        reviews := [] }
    (.ok newMovie, { s with movies := s.movies ++ [newMovie] })

end MovieServer

namespace MovieServer

/-- C3: `GET /api/movies` applies all filters first, sorts the full
filtered set, then slices `[(page-1)·limit, (page-1)·limit + limit)`;
`totalCount` is the filtered-set size before pagination,
`totalPages = ⌈totalCount/limit⌉`, and walking all pages with a fixed
positive limit the page sizes add up to `totalCount`. -/
theorem listMovies_pagination (store : List Movie) (q : ListQuery)
    (hl : 0 < q.limit) :
    (listMovies store q).totalCount = (applyFilters q store).length ∧
    (listMovies store q).movies =
      ((jsSort q.sortBy (applyFilters q store)).drop
        ((q.page - 1) * q.limit)).take q.limit ∧
    (listMovies store q).totalPages =
      ⌈(((listMovies store q).totalCount : ℚ)) / (q.limit : ℚ)⌉ ∧
    (∑ p in Finset.range (listMovies store q).totalPages.toNat,
        (listMovies store { q with page := p + 1 }).movies.length) =
      (listMovies store q).totalCount := by
  refine ⟨rfl, rfl, rfl, ?_⟩
  have hterm : ∀ p ∈ Finset.range (listMovies store q).totalPages.toNat,
      (listMovies store { q with page := p + 1 }).movies.length =
        (((jsSort q.sortBy (applyFilters q store)).drop (p * q.limit)).take
          q.limit).length := by
    intro p _
    show (((jsSort q.sortBy (applyFilters q store)).drop
      ((p + 1 - 1) * q.limit)).take q.limit).length = _
    rw [Nat.add_sub_cancel]
  rw [Finset.sum_congr rfl hterm, sum_page_lengths]
  have hS : (jsSort q.sortBy (applyFilters q store)).length =
      (applyFilters q store).length := List.length_insertionSort _ _
  have hge := ceil_div_mul_ge (applyFilters q store).length q.limit hl
  show min ((⌈((applyFilters q store).length : ℚ) / (q.limit : ℚ)⌉).toNat * q.limit)
      (jsSort q.sortBy (applyFilters q store)).length = (applyFilters q store).length
  rw [hS]
  exact min_eq_right hge

theorem listMovies_pagination_witness :
    0 < (({ limit := 2 } : ListQuery)).limit ∧
    (∑ p in Finset.range (listMovies initialMovies { limit := 2 }).totalPages.toNat,
        (listMovies initialMovies { ({ limit := 2 } : ListQuery) with page := p + 1 }).movies.length) =
      (listMovies initialMovies { limit := 2 }).totalCount ∧
    (listMovies initialMovies { limit := 2 }).totalCount = 3 :=
  ⟨by decide, (listMovies_pagination initialMovies { limit := 2 } (by decide)).2.2.2, rfl⟩

/-- C8: a page beyond the last returns an empty `movies` array (not an
error), and `totalCount`/`totalPages` are identical to the page-1 request
with the same filters and limit. -/
theorem listMovies_page_out_of_range (store : List Movie) (q : ListQuery)
    (hl : 0 < q.limit) (hp : (listMovies store q).totalPages < (q.page : ℤ)) :
    (listMovies store q).movies = [] ∧
    (listMovies store q).totalCount =
      (listMovies store { q with page := 1 }).totalCount ∧
    (listMovies store q).totalPages =
      (listMovies store { q with page := 1 }).totalPages := by
  refine ⟨?_, rfl, rfl⟩
  have hS : (jsSort q.sortBy (applyFilters q store)).length =
      (applyFilters q store).length := List.length_insertionSort _ _
  have hge := ceil_div_mul_ge (applyFilters q store).length q.limit hl
  have hpv : ⌈((applyFilters q store).length : ℚ) / (q.limit : ℚ)⌉ < (q.page : ℤ) := hp
  have h0 : 0 ≤ ⌈((applyFilters q store).length : ℚ) / (q.limit : ℚ)⌉ :=
    Int.ceil_nonneg (by positivity)
  have hp' : (⌈((applyFilters q store).length : ℚ) / (q.limit : ℚ)⌉).toNat ≤ q.page - 1 := by
    omega
  have hlen : (applyFilters q store).length ≤ (q.page - 1) * q.limit :=
    le_trans hge (Nat.mul_le_mul_right _ hp')
  show ((jsSort q.sortBy (applyFilters q store)).drop
    ((q.page - 1) * q.limit)).take q.limit = []
  rw [List.drop_eq_nil_of_le (by rw [hS]; exact hlen)]
  exact List.take_nil

unseal Rat.add Rat.mul Rat.inv Rat.ofScientific Rat.sub in
theorem listMovies_page_out_of_range_witness :
    0 < (({ page := 5, limit := 2 } : ListQuery)).limit ∧
    (listMovies initialMovies { page := 5, limit := 2 }).totalPages <
      ((({ page := 5, limit := 2 } : ListQuery)).page : ℤ) ∧
    (listMovies initialMovies { page := 5, limit := 2 }).movies = [] :=
  ⟨by decide, by decide,
    (listMovies_page_out_of_range initialMovies { page := 5, limit := 2 }
      (by decide) (by decide)).1⟩

end MovieServer

namespace MovieServer

theorem sortLe_year_iff (a b : Movie) :
    sortLe "year" a b ↔ b.releaseYear ≤ a.releaseYear := by
  unfold sortLe
  rw [if_pos rfl]

theorem sortLe_rating_iff (a b : Movie) :
    sortLe "rating" a b ↔ b.averageRating ≤ a.averageRating := by
  unfold sortLe
  rw [if_neg (by decide), if_pos rfl]

theorem sortLe_default_iff (sb : String) (h1 : sb ≠ "year") (h2 : sb ≠ "rating")
    (a b : Movie) :
    sortLe sb a b ↔ charsLe a.title.toList b.title.toList = true := by
  unfold sortLe
  rw [if_neg h1, if_neg h2]

theorem orderedInsert_congr (r s : Movie → Movie → Prop) [DecidableRel r]
    [DecidableRel s] (h : ∀ x y, r x y ↔ s x y) (a : Movie) :
    ∀ l : List Movie, l.orderedInsert r a = l.orderedInsert s a
  | [] => rfl
  | b :: l => by
    simp only [List.orderedInsert]
    by_cases hab : r a b
    · rw [if_pos hab, if_pos ((h a b).mp hab)]
    · rw [if_neg hab, if_neg (fun hc => hab ((h a b).mpr hc)),
        orderedInsert_congr r s h a l]

theorem insertionSort_congr (r s : Movie → Movie → Prop) [DecidableRel r]
    [DecidableRel s] (h : ∀ x y, r x y ↔ s x y) :
    ∀ l : List Movie, l.insertionSort r = l.insertionSort s
  | [] => rfl
  | a :: l => by
    simp only [List.insertionSort]
    rw [insertionSort_congr r s h l, orderedInsert_congr r s h a _]

theorem jsSort_default (sb : String) (h1 : sb ≠ "year") (h2 : sb ≠ "rating")
    (l : List Movie) : jsSort sb l = jsSort "title" l := by
  unfold jsSort
  exact insertionSort_congr _ _
    (fun a b => by
      rw [sortLe_default_iff sb h1 h2, sortLe_default_iff "title" (by decide) (by decide)])
    l

/-- C4: the sequence produced by the engine (the fully sorted filtered
set, of which the returned page is a contiguous slice) is non-increasing
in `averageRating` for `sortBy = rating`, non-increasing in `releaseYear`
for `sortBy = year`, lexically non-decreasing in the title for
`sortBy = title`; and every value of `sortBy` other than `year` and
`rating` (in particular every unrecognized one) behaves exactly as
`title`. -/
theorem listMovies_sorted (store : List Movie) (q : ListQuery) :
    (q.sortBy = "rating" →
      ((jsSort q.sortBy (applyFilters q store)).Pairwise fun a b =>
        b.averageRating ≤ a.averageRating) ∧
      ((listMovies store q).movies.Pairwise fun a b =>
        b.averageRating ≤ a.averageRating)) ∧
    (q.sortBy = "year" →
      ((jsSort q.sortBy (applyFilters q store)).Pairwise fun a b =>
        b.releaseYear ≤ a.releaseYear) ∧
      ((listMovies store q).movies.Pairwise fun a b =>
        b.releaseYear ≤ a.releaseYear)) ∧
    (q.sortBy ≠ "year" → q.sortBy ≠ "rating" →
      (((jsSort q.sortBy (applyFilters q store)).Pairwise fun a b =>
        charsLe a.title.toList b.title.toList = true) ∧
      ((listMovies store q).movies.Pairwise fun a b =>
        charsLe a.title.toList b.title.toList = true) ∧
      listMovies store q = listMovies store { q with sortBy := "title" })) := by
  have hsorted : (jsSort q.sortBy (applyFilters q store)).Pairwise (sortLe q.sortBy) :=
    List.sorted_insertionSort (sortLe q.sortBy) (applyFilters q store)
  have hsub : List.Sublist (listMovies store q).movies
      (jsSort q.sortBy (applyFilters q store)) :=
    (List.take_sublist _ _).trans (List.drop_sublist _ _)
  refine ⟨?_, ?_, ?_⟩
  · intro hsb
    have hfull := hsorted.imp fun {a b} hab => (sortLe_rating_iff a b).mp (hsb ▸ hab)
    exact ⟨hfull, hfull.sublist hsub⟩
  · intro hsb
    have hfull := hsorted.imp fun {a b} hab => (sortLe_year_iff a b).mp (hsb ▸ hab)
    exact ⟨hfull, hfull.sublist hsub⟩
  · intro h1 h2
    have hfull := hsorted.imp fun {a b} hab => (sortLe_default_iff q.sortBy h1 h2 a b).mp hab
    refine ⟨hfull, hfull.sublist hsub, ?_⟩
    show ListResult.mk _ _ _ _ = ListResult.mk _ _ _ _
    rw [jsSort_default q.sortBy h1 h2]
    exact rfl

end MovieServer

namespace MovieServer

unseal Rat.add Rat.mul Rat.inv Rat.ofScientific Rat.sub in
theorem listMovies_sorted_witness :
    ((({ sortBy := "rating" } : ListQuery)).sortBy = "rating") ∧
    ((listMovies initialMovies { sortBy := "rating" }).movies.Pairwise fun a b =>
      b.averageRating ≤ a.averageRating) ∧
    (({ sortBy := "popularity" } : ListQuery)).sortBy ≠ "year" ∧
    (({ sortBy := "popularity" } : ListQuery)).sortBy ≠ "rating" ∧
    listMovies initialMovies { sortBy := "popularity" } =
      listMovies initialMovies
        { ({ sortBy := "popularity" } : ListQuery) with sortBy := "title" } :=
  ⟨rfl,
   ((listMovies_sorted initialMovies { sortBy := "rating" }).1 rfl).2,
   by decide, by decide,
   ((listMovies_sorted initialMovies { sortBy := "popularity" }).2.2
     (by decide) (by decide)).2.2⟩

/-- C7: `GET /api/movies/featured` returns at most 6 entries (exactly
`min 6 |store|`), in non-increasing average-rating order; together with
the dropped remainder it is a permutation of the store, every returned
entry rates at least as high as every dropped one, and entries tied on
rating keep their insertion order (stability of the sort). -/
theorem featuredMovies_correct (store : List Movie) :
    (featuredMovies store).length = min 6 store.length ∧
    ((featuredMovies store).Pairwise fun a b =>
      b.averageRating ≤ a.averageRating) ∧
    List.Perm (featuredMovies store ++ (jsSort "rating" store).drop 6) store ∧
    (∀ x ∈ featuredMovies store, ∀ y ∈ (jsSort "rating" store).drop 6,
      y.averageRating ≤ x.averageRating) ∧
    (∀ a b : Movie, b.averageRating ≤ a.averageRating →
      List.Sublist [a, b] store →
      List.Sublist [a, b] (jsSort "rating" store)) := by
  have hsorted : (jsSort "rating" store).Pairwise (sortLe "rating") :=
    List.sorted_insertionSort _ _
  have hsorted' : (jsSort "rating" store).Pairwise fun a b =>
      b.averageRating ≤ a.averageRating :=
    hsorted.imp fun {a b} h => (sortLe_rating_iff a b).mp h
  have hlen : (jsSort "rating" store).length = store.length :=
    List.length_insertionSort _ _
  refine ⟨?_, ?_, ?_, ?_, ?_⟩
  · show ((jsSort "rating" store).take 6).length = min 6 store.length
    rw [List.length_take, hlen]
  · exact hsorted'.sublist (List.take_sublist _ _)
  · show List.Perm (((jsSort "rating" store).take 6) ++
      (jsSort "rating" store).drop 6) store
    rw [List.take_append_drop]
    exact List.perm_insertionSort _ _
  · have hsplit := hsorted'
    rw [← List.take_append_drop 6 (jsSort "rating" store)] at hsplit
    exact fun x hx y hy => (List.pairwise_append.mp hsplit).2.2 x hx y hy
  · intro a b hab hsubl
    exact List.pair_sublist_insertionSort ((sortLe_rating_iff a b).mpr hab) hsubl

end MovieServer

namespace MovieServer

unseal Rat.add Rat.mul Rat.inv Rat.ofScientific Rat.sub in
theorem featuredMovies_correct_witness :
    (featuredMovies initialMovies).length = min 6 initialMovies.length ∧
    ((initialMovies.get ⟨1, by decide⟩).averageRating ≤
      (initialMovies.get ⟨0, by decide⟩).averageRating) ∧
    List.Sublist [initialMovies.get ⟨0, by decide⟩, initialMovies.get ⟨1, by decide⟩]
      (jsSort "rating" initialMovies) :=
  ⟨(featuredMovies_correct initialMovies).1,
   by decide,
   ((featuredMovies_correct initialMovies).2.2.2.2)
     (initialMovies.get ⟨0, by decide⟩) (initialMovies.get ⟨1, by decide⟩)
     (by decide) (by decide)⟩

end MovieServer

namespace MovieServer

theorem find?_eraseP_eq_none (p : WatchlistItem → Bool) :
    ∀ l : List WatchlistItem, (l.filter p).length ≤ 1 →
      (l.eraseP p).find? p = none := by
  intro l
  induction l with
  | nil => intro _; rfl
  | cons w ws ih =>
    intro hlen
    by_cases hp : p w
    · rw [List.eraseP_cons_of_pos hp]
      rw [List.filter_cons_of_pos hp] at hlen
      simp only [List.length_cons] at hlen
      have hnil : ws.filter p = [] := List.length_eq_zero.mp (by omega)
      refine List.find?_eq_none.mpr fun x hx hpx => ?_
      have : x ∈ ws.filter p := List.mem_filter.mpr ⟨hx, hpx⟩
      rw [hnil] at this
      exact absurd this (List.not_mem_nil x)
    · rw [List.eraseP_cons_of_neg hp, List.find?_cons_of_neg _ hp]
      rw [List.filter_cons_of_neg hp] at hlen
      exact ih hlen

end MovieServer

namespace MovieServer

/-- C9: after a successful `addToWatchlist(A, M)` a second identical call
fails with `conflict` and leaves the state unchanged; after a successful
`removeFromWatchlist(A, M)` a second identical call fails with
`notFound` and leaves the state unchanged (deletion is not idempotent) —
the latter under the at-most-one-entry-per-pair invariant that the add
path maintains. -/
theorem watchlist_second_calls (s : ServerState) (uid movieId : Nat)
    (now now2 : String) :
    (∀ item movie s', addToWatchlist s uid uid movieId now = (.ok (item, movie), s') →
      addToWatchlist s' uid uid movieId now2 = (.error .conflict, s')) ∧
    ((s.watchlists.filter fun w => w.userId == uid && w.movieId == movieId).length ≤ 1 →
      ∀ s', removeFromWatchlist s uid uid movieId = (.ok (), s') →
        removeFromWatchlist s' uid uid movieId = (.error .notFound, s')) := by
  constructor
  · intro item movie s' h
    unfold addToWatchlist at h
    by_cases h1 : movieId < 1
    · rw [if_pos h1] at h
      exact absurd h (by simp)
    rw [if_neg h1, if_neg (fun hc => hc rfl)] at h
    rcases hmov : s.movies.find? fun m => m.id == movieId with _ | movie'
    · simp only [hmov] at h
      exact absurd h (by simp)
    simp only [hmov] at h
    by_cases hdup :
        (s.watchlists.find? fun w => w.userId == uid && w.movieId == movieId).isSome
    · rw [if_pos hdup] at h
      exact absurd h (by simp)
    rw [if_neg hdup] at h
    simp only [Prod.mk.injEq, Except.ok.injEq] at h
    obtain ⟨⟨hitem, hmovie⟩, hs'⟩ := h
    have hmov' : s'.movies.find? (fun m => m.id == movieId) = some movie' := by
      rw [← hs']
      exact hmov
    have hfound : ((s'.watchlists).find? fun w =>
        w.userId == uid && w.movieId == movieId).isSome = true := by
      have hwl : s'.watchlists = s.watchlists ++
          [{ id := s.watchlists.length + 1, userId := uid, movieId := movieId,
             dateAdded := now }] := by
        rw [← hs']
      rw [hwl]
      exact List.find?_isSome.mpr
        ⟨_, List.mem_append_right _ (List.mem_singleton.mpr rfl), by simp⟩
    unfold addToWatchlist
    rw [if_neg h1, if_neg (fun hc => hc rfl)]
    simp only [hmov', hfound]
    simp
  · intro hinv s' h
    unfold removeFromWatchlist at h
    rw [if_neg (fun hc => hc rfl)] at h
    by_cases hfind :
        (s.watchlists.find? fun w => w.userId == uid && w.movieId == movieId).isSome
    · rw [if_pos hfind] at h
      simp only [Prod.mk.injEq, true_and] at h
      have hs' := h
      have hnone : ((s'.watchlists).find? fun w =>
          w.userId == uid && w.movieId == movieId) = none := by
        have hwl : s'.watchlists =
            s.watchlists.eraseP fun w => w.userId == uid && w.movieId == movieId := by
          rw [← hs']
        rw [hwl]
        exact find?_eraseP_eq_none _ s.watchlists hinv
      unfold removeFromWatchlist
      rw [if_neg (fun hc => hc rfl)]
      simp only [hnone]
      simp
    · rw [if_neg hfind] at h
      exact absurd h (by simp)

end MovieServer

namespace MovieServer

/-- A demonstration state: the seeded movies plus one registered user. -/
def demoState : ServerState :=
  { movies := initialMovies
    users := [{ id := 1, username := "alice", email := "alice@example.com",
                password := "hash", profilePicture := "pic", joinDate := "d0" }]
    reviews := []
    watchlists := [] }

unseal Rat.add Rat.mul Rat.inv Rat.ofScientific Rat.sub in
theorem watchlist_second_calls_witness :
    (addToWatchlist (addToWatchlist demoState 1 1 1 "t1").2 1 1 1 "t2").1 =
      .error .conflict ∧
    (removeFromWatchlist (removeFromWatchlist
      (addToWatchlist demoState 1 1 1 "t1").2 1 1 1).2 1 1 1).1 =
      .error .notFound := by
  have s1def : addToWatchlist demoState 1 1 1 "t1" =
      (.ok (⟨1, 1, 1, "t1"⟩, initialMovies.get ⟨0, by decide⟩),
       { demoState with watchlists := [⟨1, 1, 1, "t1"⟩] }) := by rfl
  constructor
  · have := ((watchlist_second_calls demoState 1 1 "t1" "t2").1
      ⟨1, 1, 1, "t1"⟩ (initialMovies.get ⟨0, by decide⟩)
      { demoState with watchlists := [⟨1, 1, 1, "t1"⟩] } s1def)
    rw [s1def, this]
  · have hrem : removeFromWatchlist
        ({ demoState with watchlists := [⟨1, 1, 1, "t1"⟩] } : ServerState) 1 1 1 =
        (.ok (), demoState) := by rfl
    have := ((watchlist_second_calls
        ({ demoState with watchlists := [⟨1, 1, 1, "t1"⟩] } : ServerState) 1 1 "t1" "t2").2
      (by decide) demoState hrem)
    rw [s1def, hrem, this]

def wlDemo1 : ServerState := (addToWatchlist demoState 1 1 1 "t1").2

def wlDemo2 : ServerState := (addToWatchlist wlDemo1 1 1 2 "t2").2

def wlDemo3 : ServerState := (removeFromWatchlist wlDemo2 1 1 1).2

/-- C6 (failing scenario): two watchlist inserts receive ids 1 and 2;
after deleting the first, inserting a third movie assigns
`watchlists.length + 1 = 2` again — the id of the still-existing entry —
so ids are reused after a logical deletion. -/
theorem watchlist_id_reuse :
    wlDemo3.watchlists = [⟨2, 1, 2, "t2"⟩] ∧
    addToWatchlist wlDemo3 1 1 3 "t4" =
      (.ok (⟨2, 1, 3, "t4"⟩, initialMovies.get ⟨2, by decide⟩),
       { demoState with watchlists := [⟨2, 1, 2, "t2"⟩, ⟨2, 1, 3, "t4"⟩] }) := by
  constructor
  · rfl
  · rfl

end MovieServer

namespace MovieServer

/-- C10: `GET /api/movies/:id/reviews` never reads the `movies`
collection — its response is identical whatever that collection holds —
and when every stored review references an existing movie (as in every
reachable state) and the requested id resolves to no movie, the response
is the empty list rather than a NotFound error. -/
theorem getMovieReviews_no_existence_check (s : ServerState) (movieId : Nat)
    (ms : List Movie) :
    getMovieReviews { s with movies := ms } movieId = getMovieReviews s movieId ∧
    ((∀ r ∈ s.reviews, ∃ m ∈ s.movies, m.id = r.movieId) →
      (∀ m ∈ s.movies, m.id ≠ movieId) →
      getMovieReviews s movieId = []) := by
  refine ⟨rfl, ?_⟩
  intro href hnone
  unfold getMovieReviews
  have hfilter : (s.reviews.filter fun r => r.movieId == movieId) = [] := by
    rw [List.filter_eq_nil_iff]
    intro r hr
    simp only [beq_iff_eq]
    intro hc
    obtain ⟨m, hm, hid⟩ := href r hr
    exact hnone m hm (by rw [hid, hc])
  rw [hfilter]
  rfl

theorem getMovieReviews_no_existence_check_witness :
    getMovieReviews
        { demoState with reviews := [⟨1, 1, 1, 5, "great", "t1"⟩] } 99 = [] :=
  (getMovieReviews_no_existence_check
    { demoState with reviews := [⟨1, 1, 1, 5, "great", "t1"⟩] } 99 []).2
    (by decide) (by decide)

end MovieServer

namespace MovieServer

theorem find?_updateFirst (l : List Movie) (movieId : Nat) (f : Movie → Movie)
    (hf : ∀ m, (f m).id = m.id) :
    (updateFirst l movieId f).find? (fun m => m.id == movieId) =
      (l.find? fun m => m.id == movieId).map f := by
  induction l with
  | nil => rfl
  | cons m rest ih =>
    by_cases h : m.id == movieId
    · rw [show updateFirst (m :: rest) movieId f = f m :: rest from by
        rw [updateFirst, if_pos h]]
      simp only [List.find?_cons, hf, h, Option.map_some']
    · rw [show updateFirst (m :: rest) movieId f = m :: updateFirst rest movieId f from by
        rw [updateFirst, if_neg h]]
      rw [Bool.not_eq_true] at h
      simp only [List.find?_cons, h, ih]

/-- C5: with valid input, `addReview` answers NotFound when the movie id
resolves to no catalog entry; a successful call appends the review (id
`reviews.length + 1`), stores the freshly recomputed average on the first
movie with that id, leaves users and watchlists alone, and answers the
review joined with the author's `username` and `profilePicture`; and any
second call for the same (account, entry) pair with valid input then
fails with `conflict`, leaving the state — review collection and averages
included — unchanged. -/
theorem addReview_correct (s : ServerState) (uid movieId : Nat) (rating : ℤ)
    (reviewText now : String)
    (hrat : 1 ≤ rating ∧ rating ≤ 5) (htext : reviewText ≠ "") :
    ((∀ m ∈ s.movies, m.id ≠ movieId) →
      addReview s uid movieId rating reviewText now = (.error .notFound, s)) ∧
    (∀ jr s', addReview s uid movieId rating reviewText now = (.ok jr, s') →
      (∃ u, s.users.find? (fun u' => u'.id == uid) = some u ∧
        jr = { review := { id := s.reviews.length + 1, movieId := movieId,
                           userId := uid, rating := rating,
                           reviewText := (trimChars reviewText).asString,
                           timestamp := now },
               username := u.username,
               userProfilePicture := some u.profilePicture }) ∧
      s'.reviews = s.reviews ++ [jr.review] ∧
      s'.users = s.users ∧
      s'.watchlists = s.watchlists ∧
      (∃ m', s'.movies.find? (fun m => m.id == movieId) = some m' ∧
        m'.averageRating = calculateAverageRating s'.reviews movieId) ∧
      (∀ rating2 reviewText2 now2, 1 ≤ rating2 → rating2 ≤ 5 → reviewText2 ≠ "" →
        addReview s' uid movieId rating2 reviewText2 now2 =
          (.error .conflict, s'))) := by
  have hval : ¬ (¬ (1 ≤ rating ∧ rating ≤ 5) ∨ reviewText = "") := by
    push_neg
    exact ⟨hrat, htext⟩
  constructor
  · intro hnone
    unfold addReview
    rw [if_neg hval]
    have hfind : s.movies.find? (fun m => m.id == movieId) = none :=
      List.find?_eq_none.mpr fun m hm => by
        simp only [beq_iff_eq]
        exact hnone m hm
    rw [hfind]
  · intro jr s' h
    unfold addReview at h
    rw [if_neg hval] at h
    rcases hmov : s.movies.find? fun m => m.id == movieId with _ | m₀
    · simp only [hmov] at h
      exact absurd h (by simp)
    simp only [hmov] at h
    by_cases hdup :
        (s.reviews.find? fun r => r.movieId == movieId && r.userId == uid).isSome
    · rw [if_pos hdup] at h
      exact absurd h (by simp)
    rw [if_neg hdup] at h
    rcases huser : s.users.find? fun u' => u'.id == uid with _ | u
    · simp only [huser] at h
      exact absurd h (by simp)
    simp only [huser] at h
    simp only [Prod.mk.injEq, Except.ok.injEq] at h
    obtain ⟨hjr, hs'⟩ := h
    subst hs'
    subst hjr
    set nr : Review := ⟨s.reviews.length + 1, movieId, uid, rating, (trimChars reviewText).asString, now⟩ with hnrdef
    have hm0 : (updateFirst s.movies movieId fun m =>
        { m with averageRating := calculateAverageRating (s.reviews ++ [nr]) movieId }).find?
          (fun m => m.id == movieId) =
        some { m₀ with
          averageRating := calculateAverageRating (s.reviews ++ [nr]) movieId } := by
      have hstep := find?_updateFirst s.movies movieId
        (fun m => { m with
          averageRating := calculateAverageRating (s.reviews ++ [nr]) movieId })
        (fun m => rfl)
      rw [hstep, hmov, Option.map_some']
    refine ⟨⟨u, huser, rfl⟩, rfl, rfl, rfl, ⟨_, hm0, rfl⟩, ?_⟩
    intro rating2 reviewText2 now2 h1 h2 h3
    have hval2 : ¬ (¬ (1 ≤ rating2 ∧ rating2 ≤ 5) ∨ reviewText2 = "") := by
      push_neg
      exact ⟨⟨h1, h2⟩, h3⟩
    have hdup' : ((s.reviews ++ [nr]).find? fun r =>
        r.movieId == movieId && r.userId == uid).isSome = true :=
      List.find?_isSome.mpr
        ⟨nr, List.mem_append_right _ (List.mem_singleton.mpr rfl), by
          rw [hnrdef]
          simp⟩
    unfold addReview
    rw [if_neg hval2]
    simp only [hm0, hdup']
    simp

end MovieServer

namespace MovieServer

unseal Rat.add Rat.mul Rat.inv Rat.ofScientific Rat.sub in
theorem addReview_correct_witness :
    (addReview (addReview demoState 1 1 5 "great" "t1").2 1 1 3 "meh" "t2").1 =
      .error .conflict ∧
    ((addReview demoState 1 1 5 "great" "t1").2.movies.find? (fun m => m.id == 1)).map
      (fun m => m.averageRating) = some 5 := by
  have hok : addReview demoState 1 1 5 "great" "t1" =
      (.ok { review := ⟨1, 1, 1, 5, "great", "t1"⟩, username := "alice",
             userProfilePicture := some "pic" },
       (addReview demoState 1 1 5 "great" "t1").2) := by rfl
  constructor
  · have hconf := ((addReview_correct demoState 1 1 5 "great" "t1"
      (by decide) (by decide)).2 _ _ hok).2.2.2.2.2 3 "meh" "t2"
      (by decide) (by decide) (by decide)
    rw [hconf]
  · decide

end MovieServer

namespace MovieServer

/-! ## Reachable states and the rating invariant -/

/-- States reachable from the seeded `initialState`.  The movie and
review collections change only through `createMovie` and `addReview`,
the only routes that write them; the user and watchlist collections may
evolve arbitrarily — an over-approximation of the register / profile /
watchlist routes, which never touch movies or reviews. -/
inductive Reachable : ServerState → Prop where
  | init : Reachable initialState
  | createMovieStep (s : ServerState) (title : String) (genre : List String)
      (releaseYear : ℤ) (director : String) (castOpt : Option (List String))
      (synopsisOpt : Option String) (posterUrlOpt : Option String)
      (currentYear : ℤ) : Reachable s →
      Reachable (createMovie s title genre releaseYear director castOpt
        synopsisOpt posterUrlOpt currentYear).2
  | addReviewStep (s : ServerState) (uid movieId : Nat) (rating : ℤ)
      (reviewText now : String) : Reachable s →
      Reachable (addReview s uid movieId rating reviewText now).2
  | usersStep (s : ServerState) (us : List User) : Reachable s →
      Reachable { s with users := us }
  | watchlistsStep (s : ServerState) (ws : List WatchlistItem) : Reachable s →
      Reachable { s with watchlists := ws }

/-- Auxiliary store invariant: movie ids are bounded by the collection
length and duplicate-free, each review references an existing movie, and
each movie's stored average is the recomputed one as soon as it has a
review — movies without reviews carry 0 or their seeded value. -/
def StoreInv (s : ServerState) : Prop :=
  (∀ i ∈ s.movies.map fun m => m.id, i ≤ s.movies.length) ∧
  (s.movies.map fun m => m.id).Nodup ∧
  (∀ r ∈ s.reviews, r.movieId ∈ s.movies.map fun m => m.id) ∧
  ∀ m ∈ s.movies,
    ((s.reviews.filter fun r => r.movieId == m.id) ≠ [] →
      m.averageRating = calculateAverageRating s.reviews m.id) ∧
    ((s.reviews.filter fun r => r.movieId == m.id) = [] →
      m.averageRating = 0 ∨ m ∈ initialMovies)

theorem updateFirst_map_id (l : List Movie) (mid : Nat) (f : Movie → Movie)
    (hf : ∀ m, (f m).id = m.id) :
    (updateFirst l mid f).map (fun m => m.id) = l.map fun m => m.id := by
  induction l with
  | nil => rfl
  | cons m rest ih =>
    by_cases h : m.id == mid
    · rw [show updateFirst (m :: rest) mid f = f m :: rest from by
        rw [updateFirst, if_pos h]]
      simp [hf]
    · rw [show updateFirst (m :: rest) mid f = m :: updateFirst rest mid f from by
        rw [updateFirst, if_neg h]]
      simp [ih]

theorem mem_updateFirst (l : List Movie) (mid : Nat) (f : Movie → Movie)
    (hnodup : (l.map fun m => m.id).Nodup) :
    ∀ m' ∈ updateFirst l mid f, ∃ m ∈ l, m' = if m.id == mid then f m else m := by
  induction l with
  | nil =>
    intro m' hm'
    cases hm'
  | cons m rest ih =>
    intro m' hm'
    simp only [List.map_cons, List.nodup_cons] at hnodup
    by_cases h : m.id == mid
    · rw [show updateFirst (m :: rest) mid f = f m :: rest from by
        rw [updateFirst, if_pos h]] at hm'
      rcases List.mem_cons.mp hm' with rfl | hmem
      · exact ⟨m, List.mem_cons_self _ _, by rw [if_pos h]⟩
      · refine ⟨m', List.mem_cons_of_mem _ hmem, ?_⟩
        rw [if_neg ?hne]
        case hne =>
          intro hc
          apply hnodup.1
          have h1 : m.id = mid := beq_iff_eq.mp h
          have h2 : m'.id = mid := beq_iff_eq.mp hc
          rw [h1, ← h2]
          exact List.mem_map.mpr ⟨m', hmem, rfl⟩
    · rw [show updateFirst (m :: rest) mid f = m :: updateFirst rest mid f from by
        rw [updateFirst, if_neg h]] at hm'
      rcases List.mem_cons.mp hm' with rfl | hmem
      · exact ⟨m', List.mem_cons_self _ _, by rw [if_neg h]⟩
      · obtain ⟨m₁, hm₁, he⟩ := ih hnodup.2 m' hmem
        exact ⟨m₁, List.mem_cons_of_mem _ hm₁, he⟩

end MovieServer

namespace MovieServer

theorem filter_append_review (l : List Review) (nr : Review) (x : Nat)
    (hx : nr.movieId ≠ x) :
    ((l ++ [nr]).filter fun r => r.movieId == x) =
      l.filter fun r => r.movieId == x := by
  rw [List.filter_append]
  have : ([nr].filter fun r => r.movieId == x) = [] := by
    simp [hx]
  rw [this, List.append_nil]

theorem calcAvg_append_other (l : List Review) (nr : Review) (x : Nat)
    (hx : nr.movieId ≠ x) :
    calculateAverageRating (l ++ [nr]) x = calculateAverageRating l x := by
  unfold calculateAverageRating
  rw [filter_append_review l nr x hx]

theorem filter_append_review_ne_nil (l : List Review) (nr : Review) (x : Nat)
    (hx : nr.movieId = x) :
    ((l ++ [nr]).filter fun r => r.movieId == x) ≠ [] := by
  rw [List.filter_append]
  have : ([nr].filter fun r => r.movieId == x) = [nr] := by
    simp [hx]
  rw [this]
  intro hc
  exact absurd (List.append_eq_nil.mp hc).2 (by simp)

theorem storeInv_addReview_core (s s' : ServerState) (movieId : Nat)
    (nr : Review) (m₀ : Movie)
    (hnrmid : nr.movieId = movieId)
    (hmovies : s'.movies = updateFirst s.movies movieId fun m =>
      { m with averageRating := calculateAverageRating (s.reviews ++ [nr]) movieId })
    (hreviews : s'.reviews = s.reviews ++ [nr])
    (hmov : s.movies.find? (fun m => m.id == movieId) = some m₀)
    (ih : StoreInv s) : StoreInv s' := by
  obtain ⟨hbound, hnodup, href, hrating⟩ := ih
  have hf : ∀ m : Movie, (({ m with averageRating := calculateAverageRating (s.reviews ++ [nr]) movieId } : Movie)).id = m.id :=
    fun m => rfl
  have hmap : s'.movies.map (fun m => m.id) = s.movies.map fun m => m.id := by
    rw [hmovies]
    exact updateFirst_map_id s.movies movieId _ hf
  have hlen : s'.movies.length = s.movies.length := by
    have h1 := congrArg List.length hmap
    simpa using h1
  have hmid : movieId ∈ s.movies.map fun m => m.id := by
    have h1 := List.find?_some hmov
    have h2 := List.mem_of_find?_eq_some hmov
    exact List.mem_map.mpr ⟨m₀, h2, beq_iff_eq.mp h1⟩
  refine ⟨?_, ?_, ?_, ?_⟩
  · intro i hi
    rw [hlen]
    rw [hmap] at hi
    exact hbound i hi
  · rw [hmap]
    exact hnodup
  · intro r hr
    rw [hreviews] at hr
    rw [hmap]
    rcases List.mem_append.mp hr with hold | hnew
    · exact href r hold
    · rw [List.mem_singleton.mp hnew, hnrmid]
      exact hmid
  · intro m' hm'
    rw [hmovies] at hm'
    rw [hreviews]
    obtain ⟨m, hm, he⟩ := mem_updateFirst s.movies movieId _ hnodup m' hm'
    by_cases h : m.id == movieId
    · rw [if_pos h] at he
      subst he
      have hid : (({ m with averageRating := calculateAverageRating (s.reviews ++ [nr]) movieId } : Movie)).id = movieId :=
        beq_iff_eq.mp h
      constructor
      · intro _
        rw [hid]
      · intro hc
        rw [hid] at hc
        exact absurd hc (filter_append_review_ne_nil s.reviews nr movieId hnrmid)
    · rw [if_neg h] at he
      subst he
      have hne : nr.movieId ≠ m'.id := by
        rw [hnrmid]
        exact fun hc => h (beq_iff_eq.mpr hc.symm)
      constructor
      · intro hfil
        rw [filter_append_review s.reviews nr m'.id hne] at hfil
        rw [calcAvg_append_other s.reviews nr m'.id hne]
        exact (hrating m' hm).1 hfil
      · intro hfil
        rw [filter_append_review s.reviews nr m'.id hne] at hfil
        exact (hrating m' hm).2 hfil

end MovieServer

namespace MovieServer

theorem storeInv_createMovie_core (s s' : ServerState) (nm : Movie)
    (hnmid : nm.id = s.movies.length + 1)
    (hnmavg : nm.averageRating = 0)
    (hmovies : s'.movies = s.movies ++ [nm])
    (hreviews : s'.reviews = s.reviews)
    (ih : StoreInv s) : StoreInv s' := by
  obtain ⟨hbound, hnodup, href, hrating⟩ := ih
  have hlen : s'.movies.length = s.movies.length + 1 := by
    rw [hmovies]
    simp
  refine ⟨?_, ?_, ?_, ?_⟩
  · intro i hi
    rw [hmovies, List.map_append] at hi
    rw [hlen]
    rcases List.mem_append.mp hi with hold | hnew
    · exact le_trans (hbound i hold) (Nat.le_succ _)
    · simp only [List.map_cons, List.map_nil, List.mem_singleton] at hnew
      rw [hnew, hnmid]
  · rw [hmovies, List.map_append]
    refine List.Nodup.append hnodup (List.nodup_singleton _) ?_
    intro i hi₁ hi₂
    simp only [List.map_cons, List.map_nil, List.mem_singleton] at hi₂
    have hb := hbound i hi₁
    rw [hi₂, hnmid] at hb
    omega
  · intro r hr
    rw [hreviews] at hr
    rw [hmovies, List.map_append]
    exact List.mem_append_left _ (href r hr)
  · intro m hm
    rw [hreviews]
    rw [hmovies] at hm
    rcases List.mem_append.mp hm with hold | hnew
    · exact hrating m hold
    · rw [List.mem_singleton.mp hnew]
      constructor
      · intro hfil
        exfalso
        obtain ⟨r, hrf⟩ := List.exists_mem_of_ne_nil _ hfil
        have hrmem := (List.mem_filter.mp hrf).1
        have hrid := (List.mem_filter.mp hrf).2
        have hb := hbound _ (href r hrmem)
        rw [beq_iff_eq.mp hrid, hnmid] at hb
        omega
      · intro _
        exact Or.inl hnmavg

theorem reachable_storeInv (s : ServerState) (h : Reachable s) : StoreInv s := by
  induction h with
  | init =>
    refine ⟨by decide, by decide, by decide, ?_⟩
    intro m hm
    constructor
    · intro hfil
      exact absurd rfl hfil
    · intro _
      exact Or.inr hm
  | createMovieStep s title genre releaseYear director castOpt synopsisOpt posterUrlOpt currentYear _ ih =>
    by_cases hvalid : title = "" ∨ director = "" ∨ releaseYear < 1900 ∨
      currentYear + 5 < releaseYear
    · have he : (createMovie s title genre releaseYear director castOpt
          synopsisOpt posterUrlOpt currentYear).2 = s := by
        unfold createMovie
        rw [if_pos hvalid]
      rw [he]
      exact ih
    · have hmv : (createMovie s title genre releaseYear director castOpt
          synopsisOpt posterUrlOpt currentYear).2.movies =
          s.movies ++ [Movie.mk (s.movies.length + 1) (trimChars title).asString
            genre releaseYear (trimChars director).asString (castOpt.getD [])
            (synopsisOpt.getD "")
            (posterUrlOpt.getD ("https://via.placeholder.com/300x450?text=" ++ title))
            0 []] := by
        simp only [createMovie, if_neg hvalid]
      have hrv : (createMovie s title genre releaseYear director castOpt
          synopsisOpt posterUrlOpt currentYear).2.reviews = s.reviews := by
        simp only [createMovie, if_neg hvalid]
      exact storeInv_createMovie_core s _ _ rfl rfl hmv hrv ih
  | addReviewStep s uid movieId rating reviewText now _ ih =>
    by_cases hval : ¬ (1 ≤ rating ∧ rating ≤ 5) ∨ reviewText = ""
    · have he : (addReview s uid movieId rating reviewText now).2 = s := by
        unfold addReview
        rw [if_pos hval]
      rw [he]
      exact ih
    · rcases hmov : s.movies.find? fun m => m.id == movieId with _ | m₀
      · have he : (addReview s uid movieId rating reviewText now).2 = s := by
          unfold addReview
          rw [if_neg hval]
          simp only [hmov]
        rw [he]
        exact ih
      by_cases hdup :
          (s.reviews.find? fun r => r.movieId == movieId && r.userId == uid).isSome
      · have he : (addReview s uid movieId rating reviewText now).2 = s := by
          unfold addReview
          rw [if_neg hval]
          simp only [hmov]
          rw [if_pos hdup]
        rw [he]
        exact ih
      · have hmv : (addReview s uid movieId rating reviewText now).2.movies =
            updateFirst s.movies movieId fun m =>
              { m with averageRating := calculateAverageRating (s.reviews ++ [⟨s.reviews.length + 1, movieId, uid, rating, (trimChars reviewText).asString, now⟩]) movieId } := by
          unfold addReview
          rw [if_neg hval]
          simp only [hmov]
          rw [if_neg hdup]
          rcases h' : s.users.find? fun u' => u'.id == uid with _ | u <;>
            simp only [h']
        have hrv : (addReview s uid movieId rating reviewText now).2.reviews =
            s.reviews ++ [⟨s.reviews.length + 1, movieId, uid, rating, (trimChars reviewText).asString, now⟩] := by
          unfold addReview
          rw [if_neg hval]
          simp only [hmov]
          rw [if_neg hdup]
          rcases h' : s.users.find? fun u' => u'.id == uid with _ | u <;>
            simp only [h']
        exact storeInv_addReview_core s _ movieId _ m₀ rfl hmv hrv hmov ih
  | usersStep s us _ ih =>
    exact ih
  | watchlistsStep s ws _ ih =>
    exact ih

end MovieServer

namespace MovieServer

unseal Rat.add Rat.mul Rat.inv Rat.ofScientific Rat.sub in
/-- C2 (counterexample): in the initial seeded state — a reachable state —
the first catalog entry stores averageRating 4.8 although no review
references it, while the invariant demands the recomputed value 0.  The
seeded ratings (4.8, 4.7, 4.6) are not derived from any review. -/
theorem initial_rating_invariant_counterexample :
    Reachable initialState ∧
    (initialState.reviews.filter fun r =>
      r.movieId == (initialState.movies.get ⟨0, by decide⟩).id) = [] ∧
    calculateAverageRating initialState.reviews
      (initialState.movies.get ⟨0, by decide⟩).id = 0 ∧
    (initialState.movies.get ⟨0, by decide⟩).averageRating ≠ 0 :=
  ⟨Reachable.init, rfl, rfl, by decide⟩

/-- C2 (amended): in every reachable state, every catalog entry that has
at least one referencing review stores exactly the recomputed rounded
mean; an entry with no referencing reviews stores either 0 (entries
created through the API) or its seeded value (the three seeded entries,
which violate the unrestricted invariant until first reviewed). -/
theorem reachable_rating_invariant (s : ServerState) (h : Reachable s) :
    ∀ m ∈ s.movies,
      ((s.reviews.filter fun r => r.movieId == m.id) ≠ [] →
        m.averageRating = calculateAverageRating s.reviews m.id) ∧
      ((s.reviews.filter fun r => r.movieId == m.id) = [] →
        m.averageRating = 0 ∨ m ∈ initialMovies) :=
  (reachable_storeInv s h).2.2.2

unseal Rat.add Rat.mul Rat.inv Rat.ofScientific Rat.sub in
theorem reachable_rating_invariant_witness :
    ((addReview demoState 1 1 5 "great" "t1").2.movies.get ⟨0, by decide⟩).averageRating =
      calculateAverageRating (addReview demoState 1 1 5 "great" "t1").2.reviews
        ((addReview demoState 1 1 5 "great" "t1").2.movies.get ⟨0, by decide⟩).id := by
  have hreach : Reachable (addReview demoState 1 1 5 "great" "t1").2 :=
    Reachable.addReviewStep _ 1 1 5 "great" "t1"
      (Reachable.usersStep initialState _ Reachable.init)
  exact (reachable_rating_invariant _ hreach _
    (List.get_mem _ 0 (by decide))).1 (by decide)

end MovieServer

namespace MovieServer

unseal Rat.add Rat.mul Rat.inv Rat.ofScientific Rat.sub in
theorem recompute_correct_witness :
    recompute [] 1 = (0, 0) ∧
    (recompute [⟨1, 1, 1, 5, "a", "t"⟩, ⟨2, 1, 2, 4, "b", "t"⟩] 1).2 = 2 := by
  constructor
  · exact (recompute_correct [] 1).1 rfl
  · rw [((recompute_correct [⟨1, 1, 1, 5, "a", "t"⟩, ⟨2, 1, 2, 4, "b", "t"⟩] 1).2
      (by decide)).1]
    decide

end MovieServer

namespace MovieServer

/-- JS `parseInt` on a route segment: the number parsed from the longest
leading digit run, `none` standing for `NaN` when the segment does not
start with a digit (signs and radix prefixes do not occur in these
routes). -/
def jsParseInt (s : String) : Option Nat :=
  let digits := s.toList.takeWhile fun c => c.isDigit
  if digits.isEmpty then none
  else some (digits.foldl (fun acc c => acc * 10 + (c.toNat - 48)) 0)

/-- `GET /api/movies/:id` (server.js:244-273): `parseInt` the segment —
a non-numeric segment gives `NaN`, which `m.id === movieId` never
matches, hence 404 — then answer the movie with its reviews joined with
the author fields. -/
def getMovieById (s : ServerState) (idSegment : String) :
    Except ApiError (Movie × List JoinedReview) :=
  match jsParseInt idSegment with
  | none => .error .notFound
  | some movieId =>
    match s.movies.find? fun m => m.id == movieId with
    | none => .error .notFound
    | some movie => .ok (movie, getMovieReviews s movieId)

/-- Response of a `GET /api/movies/<segment>` request. -/
inductive MoviesGetResponse where
  | movie (m : Movie) (reviews : List JoinedReview)
  | featuredList (movies : List Movie)
  | notFound
deriving Repr, DecidableEq

/-- Express dispatch of `GET /api/movies/<segment>` (one extra path
segment): routes match in registration order, and
`app.get('/api/movies/:id', ...)` (server.js:244) is registered before
`app.get('/api/movies/featured', ...)` (server.js:564), so the
parameterized route captures every single segment — the literal
`"featured"` included — and the featured handler is unreachable. -/
def dispatchMoviesGet (s : ServerState) (segment : String) : MoviesGetResponse :=
  match getMovieById s segment with
  | .ok (m, revs) => .movie m revs
  | .error _ => .notFound

/-- C7 (failing behaviour): a real `GET /api/movies/featured` request is
captured by the earlier-registered `/api/movies/:id` route;
`parseInt("featured")` is `NaN`, no movie matches, and the endpoint
answers 404 in every state — it never returns the top-rated list that
the (unreachable) featured handler, verified in
`featuredMovies_correct`, would produce. -/
theorem featured_route_shadowed (s : ServerState) :
    dispatchMoviesGet s "featured" = MoviesGetResponse.notFound := by
  unfold dispatchMoviesGet getMovieById
  rw [show jsParseInt "featured" = none from by decide]

end MovieServer
